import Mathlib

/-!
Verification of the kssio auxiliary scripts.

`UpdatePrereqs` is a shallow embedding of `src/BuildSystem/update_prereqs.py`:
the script's main loop is modelled as a pure interpreter that threads the
process state (working directory and environment) and records an event trace
(prints, `os.chdir` calls, and shell-command invocations together with the
working directory, environment and exit code observed at each invocation).
External behaviour is supplied by a `Config`: an exit-code oracle for shell
commands (`subprocess.call` / `subprocess.check_call` with `shell=True`) and
a snapshot of `os.path.exists`.  A `check_call` on a command with nonzero
exit raises `CalledProcessError`, which the script never catches, so the run
aborts; a missing dictionary key raises `KeyError`, likewise uncaught.  Both
are modelled by `RunError`.

`HttpTestServer` embeds the request handler of `src/Tests/http_test_server.py`
as a pure function from (path, method) to the response the handler emits.
-/

namespace UpdatePrereqs

/-- A manifest entry (`dep` in the script): a JSON object whose fields are
accessed as `dep["name"]`, `dep["update-needed"]`, `dep["update"]`,
`dep["download"]` and `dep["build"]`.  Each field is `Option`-valued because
a Python dictionary access raises `KeyError` when the key is absent. -/
structure Dep where
  name : Option String
  updateNeeded : Option String
  update : Option String
  download : Option String
  build : Option (List String)
  deriving Repr, DecidableEq

/-- Uncaught Python exceptions that terminate the run: a `KeyError` from a
missing manifest field, or a `CalledProcessError` from `subprocess.check_call`
on a command that exited nonzero. -/
inductive RunError where
  | keyError (field : String)
  | commandFailed (cmd : String)
  deriving Repr, DecidableEq

/-- Observable events of a run, in chronological order. -/
inductive Event where
  | print (msg : String)
  | makedirs (path : String)
  | chdir (path : String)
  | call (cmd : String) (cwd : String) (env : List (String × String)) (code : Nat)
  deriving Repr, DecidableEq

/-- Mutable process state threaded through the run: the working directory
(`os.chdir`) and the process environment (`os.environ`). -/
structure PState where
  cwd : String
  env : List (String × String)
  deriving Repr, DecidableEq

/-- External world: exit-code oracle for shell commands, `os.path.exists`
snapshot, `platform.system()`, the initial working directory returned by
`os.getcwd()`, and the initial `os.environ`. -/
structure Config where
  exec : String → Nat
  pathExists : String → Bool
  operatingSystem : String
  cwd0 : String
  env0 : List (String × String)

/-- `dependancySrcDir = ".prereqs/Sources"` (sic) in the script. -/
def dependancySrcDir : String := ".prereqs/Sources"

/-- `dependancyOsDir = ".prereqs/" + operatingSystem`. -/
def dependancyOsDir (cfg : Config) : String := ".prereqs/" ++ cfg.operatingSystem

/-- Python dictionary assignment `env[k] = v` on an association list. -/
def envSet (env : List (String × String)) (k v : String) : List (String × String) :=
  (k, v) :: env.filter (fun p => p.1 ≠ k)

/-- Association-list lookup, the reading counterpart of `envSet`. -/
def envLookup (env : List (String × String)) (k : String) : Option String :=
  (env.find? (fun p => p.1 = k)).map Prod.snd

/-- The environment handed to build commands: `tmpEnv = os.environ.copy()`
followed by `tmpEnv["TARGETDIR"] = cwd + "/" + dependancyOsDir`. -/
def buildEnv (cfg : Config) (env : List (String × String)) : List (String × String) :=
  envSet env "TARGETDIR" (cfg.cwd0 ++ "/" ++ dependancyOsDir cfg)

/-- The inner loop of the build phase (lines 67-69): run each command of
`dep["build"]` in order via `check_call` with `env=tmpEnv`; the first nonzero
exit raises and stops the loop.  Returns the events, the state after the
loop including the final `os.chdir(cwd)` on success, and the error if any. -/
def runBuildCmds (cfg : Config) (st : PState) (tmpEnv : List (String × String)) :
    List String → List Event × PState × Option RunError
  | [] => ([Event.chdir cfg.cwd0], { st with cwd := cfg.cwd0 }, none)
  | cmd :: rest =>
    let code := cfg.exec cmd
    let ev := [Event.print ("      " ++ cmd), Event.call cmd st.cwd tmpEnv code]
    if code = 0 then
      let (ev2, st2, e) := runBuildCmds cfg st tmpEnv rest
      (ev ++ ev2, st2, e)
    else
      (ev, st, some (RunError.commandFailed cmd))

/-- The build phase (lines 61-70), entered only when `changed == True`:
print, `os.chdir` into the dependency's source directory, read `dep["build"]`,
build `tmpEnv`, run the commands, and `os.chdir(cwd)` back on success. -/
def buildPhase (cfg : Config) (st : PState) (dep : Dep) (name : String) :
    List Event × PState × Option RunError :=
  let depDir := dependancySrcDir ++ "/" ++ name
  let st1 : PState := { st with cwd := depDir }
  let ev0 := [Event.print "    building...", Event.chdir depDir]
  match dep.build with
  | none => (ev0, st1, some (RunError.keyError "build"))
  | some cmds =>
    let tmpEnv := buildEnv cfg st1.env
    let (ev, st2, e) := runBuildCmds cfg st1 tmpEnv cmds
    (ev0 ++ ev, st2, e)

/-- The download/update phase (lines 39-58).  If the dependency's source
directory exists: chdir there, run `dep["update-needed"]` with
`subprocess.call`; exit 0 means no update, otherwise run `dep["update"]`
with `check_call`, count the dependency as changed, and chdir back.  If the
directory does not exist: chdir to the sources root, run `dep["download"]`
with `check_call`, chdir back, and count the dependency as changed.
Returns events, state, and either an error or `(changed, delta)` where
`delta` is the increment applied to `numChanged`. -/
def syncPhase (cfg : Config) (st : PState) (dep : Dep) (name : String) :
    List Event × PState × Except RunError (Bool × Nat) :=
  let depDir := dependancySrcDir ++ "/" ++ name
  if cfg.pathExists depDir then
    let st1 : PState := { st with cwd := depDir }
    match dep.updateNeeded with
    | none => ([Event.chdir depDir], st1, Except.error (RunError.keyError "update-needed"))
    | some checkCmd =>
      let code := cfg.exec checkCmd
      let ev := [Event.chdir depDir, Event.call checkCmd depDir st1.env code]
      if code = 0 then
        (ev ++ [Event.print "    no update needed", Event.chdir cfg.cwd0],
         { st1 with cwd := cfg.cwd0 }, Except.ok (false, 0))
      else
        match dep.update with
        | none =>
          (ev ++ [Event.print "    updating..."], st1,
           Except.error (RunError.keyError "update"))
        | some updCmd =>
          let ucode := cfg.exec updCmd
          let ev2 := ev ++ [Event.print "    updating...",
                            Event.call updCmd depDir st1.env ucode]
          if ucode = 0 then
            (ev2 ++ [Event.chdir cfg.cwd0], { st1 with cwd := cfg.cwd0 },
             Except.ok (true, 1))
          else
            (ev2, st1, Except.error (RunError.commandFailed updCmd))
  else
    let st1 : PState := { st with cwd := dependancySrcDir }
    let ev := [Event.print "    downloading...", Event.chdir dependancySrcDir]
    match dep.download with
    | none => (ev, st1, Except.error (RunError.keyError "download"))
    | some dlCmd =>
      let code := cfg.exec dlCmd
      let ev2 := ev ++ [Event.call dlCmd dependancySrcDir st1.env code]
      if code = 0 then
        (ev2 ++ [Event.chdir cfg.cwd0], { st1 with cwd := cfg.cwd0 },
         Except.ok (true, 1))
      else
        (ev2, st1, Except.error (RunError.commandFailed dlCmd))

/-- One iteration of the main loop (lines 34-70): read `dep["name"]`, print
the progress line, run the download/update phase, and, when the dependency
changed, the build phase.  On success returns `(changed, delta)`. -/
def processDep (cfg : Config) (st : PState) (dep : Dep) :
    List Event × PState × Except RunError (Bool × Nat) :=
  match dep.name with
  | none => ([], st, Except.error (RunError.keyError "name"))
  | some name =>
    let ev0 := [Event.print ("  " ++ name ++ "...")]
    let (ev1, st1, r1) := syncPhase cfg st dep name
    match r1 with
    | Except.error e => (ev0 ++ ev1, st1, Except.error e)
    | Except.ok (changed, delta) =>
      if changed then
        let (ev2, st2, err) := buildPhase cfg st1 dep name
        match err with
        | some e => (ev0 ++ ev1 ++ ev2, st2, Except.error e)
        | none => (ev0 ++ ev1 ++ ev2, st2, Except.ok (changed, delta))
      else
        (ev0 ++ ev1, st1, Except.ok (changed, delta))

/-- The main loop over the manifest (line 33), accumulating `numChanged`.
Besides the faithful accumulator `num`, the result records the list of
per-dependency `changed` flags observed, so that the exit status can be
compared against it. -/
def runDeps (cfg : Config) (st : PState) (num : Nat) :
    List Dep → List Event × PState × List Bool × Except RunError Nat
  | [] => ([], st, [], Except.ok num)
  | dep :: rest =>
    let (ev, st1, r) := processDep cfg st dep
    match r with
    | Except.error e => (ev, st1, [], Except.error e)
    | Except.ok (changed, delta) =>
      let (ev2, st2, flags, r2) := runDeps cfg st1 (num + delta) rest
      (ev ++ ev2, st2, changed :: flags, r2)

/-- The directory-creation preamble (lines 25-30). -/
def mkdirEvents (cfg : Config) : List Event :=
  (if cfg.pathExists dependancySrcDir then []
   else [Event.print ("Creating directory " ++ dependancySrcDir),
         Event.makedirs dependancySrcDir]) ++
  (if cfg.pathExists (dependancyOsDir cfg) then []
   else [Event.print ("Creating directory " ++ dependancyOsDir cfg),
         Event.makedirs (dependancyOsDir cfg)])

/-- The whole `__main__` block.  `manifest = none` models an `IOError` from
`open('prereqs.json')` (the file is missing): the script prints a message
and calls `exit(0)`.  Otherwise the directory preamble runs, then the loop,
then `exit(numChanged)`; an uncaught exception instead ends the run with
that error and whatever state it had at that point. -/
def runMain (cfg : Config) (manifest : Option (List Dep)) :
    List Event × PState × List Bool × Except RunError Nat :=
  match manifest with
  | none =>
    ([Event.print "Could not open prereqs.json. Assuming no dependancies."],
     { cwd := cfg.cwd0, env := cfg.env0 }, [], Except.ok 0)
  | some deps =>
    let st0 : PState := { cwd := cfg.cwd0, env := cfg.env0 }
    let evPre := mkdirEvents cfg ++ [Event.print "Updating prerequisites..."]
    let (ev, st, flags, r) := runDeps cfg st0 0 deps
    match r with
    | Except.ok n =>
      (evPre ++ ev ++ [Event.print ("Prerequisites updated or changed: " ++ toString n)],
       st, flags, Except.ok n)
    | Except.error e => (evPre ++ ev, st, flags, Except.error e)

/-- The shell-command invocations of a trace, in order. -/
def callEvents : List Event → List Event
  | [] => []
  | Event.call c w e n :: rest => Event.call c w e n :: callEvents rest
  | _ :: rest => callEvents rest

end UpdatePrereqs

namespace HttpTestServer

/-- What the handler emits on one request: the status passed to
`send_response`, the headers passed to `send_header`, whether `end_headers`
was called, and the body written to `wfile`. -/
structure Response where
  status : Nat
  headers : List (String × String)
  headersEnded : Bool
  body : String
  deriving Repr, DecidableEq

/-- `myHandler._handler`, dispatched identically from `do_GET`, `do_HEAD`,
`do_POST` and `do_PUT`: path `/hello` gets a 200 with a `text/plain` header,
and the fixed body only when the method is `GET`; any other path gets a
bare 404. -/
def handler (path command : String) : Response :=
  if path = "/hello" then
    { status := 200, headers := [("Content-type", "text/plain")], headersEnded := true,
      body := if command = "GET" then "Hello World" else "" }
  else
    { status := 404, headers := [], headersEnded := false, body := "" }

/-- The methods for which the server defines a `do_<METHOD>` handler. -/
def handledMethods : List String := ["GET", "HEAD", "POST", "PUT"]

end HttpTestServer

namespace UpdatePrereqs

/-! ### Concrete fixtures used to evaluate the interpreter -/

/-- Fixture: every shell command succeeds and only `zlib`'s source directory
exists under the sources root. -/
def cfgA : Config :=
  { exec := fun _ => 0
    pathExists := fun p => p == ".prereqs/Sources/zlib"
    operatingSystem := "Linux"
    cwd0 := "/work"
    env0 := [("PATH", "/bin")] }

/-- Fixture: every shell command fails and no directory exists. -/
def cfgB : Config :=
  { exec := fun _ => 1
    pathExists := fun _ => false
    operatingSystem := "Linux"
    cwd0 := "/work"
    env0 := [] }

/-- Fixture: only the command `"make"` fails; no directory exists. -/
def cfgC : Config :=
  { exec := fun c => if c == "make" then 1 else 0
    pathExists := fun _ => false
    operatingSystem := "Linux"
    cwd0 := "/work"
    env0 := [] }

/-- Fixture manifest entry for `zlib`. -/
def depZlib : Dep :=
  { name := some "zlib", updateNeeded := some "check zlib", update := some "update zlib",
    download := some "download zlib", build := some ["make zlib"] }

/-- Fixture manifest entry for `curl`. -/
def depCurl : Dep :=
  { name := some "curl", updateNeeded := some "check curl", update := some "update curl",
    download := some "download curl", build := some ["make curl", "install curl"] }

/-- Fixture manifest entry whose first build command is the failing `"make"`. -/
def depMake : Dep :=
  { name := some "z", updateNeeded := some "check z", update := some "update z",
    download := some "download z", build := some ["make", "make install"] }

/-- Fixture initial state matching `cfgA`. -/
def stA : PState := { cwd := "/work", env := [("PATH", "/bin")] }

/-- Fixture initial state matching `cfgB` and `cfgC`. -/
def stB : PState := { cwd := "/work", env := [] }

end UpdatePrereqs

namespace UpdatePrereqs

/-! ### Helper lemmas about the interpreter -/

theorem callEvents_append (a b : List Event) :
    callEvents (a ++ b) = callEvents a ++ callEvents b := by
  induction a with
  | nil => rfl
  | cons x xs ih => cases x <;> simp [callEvents, ih]

theorem syncPhase_ok_delta (cfg : Config) (st : PState) (dep : Dep) (name : String)
    (ev : List Event) (st' : PState) (c : Bool) (d : Nat)
    (h : syncPhase cfg st dep name = (ev, st', Except.ok (c, d))) :
    d = if c then 1 else 0 := by
  unfold syncPhase at h
  simp only at h
  split at h
  · split at h
    · simp at h
    · split at h
      · obtain ⟨-, -, h⟩ := Prod.mk.injEq .. ▸ h
        simp_all
      · split at h
        · simp at h
        · split at h
          · obtain ⟨-, -, h⟩ := Prod.mk.injEq .. ▸ h
            simp_all
          · simp at h
  · split at h
    · simp at h
    · split at h
      · obtain ⟨-, -, h⟩ := Prod.mk.injEq .. ▸ h
        simp_all
      · simp at h

theorem syncPhase_env (cfg : Config) (st : PState) (dep : Dep) (name : String) :
    (syncPhase cfg st dep name).2.1.env = st.env := by
  unfold syncPhase
  simp only
  split
  · split
    · rfl
    · split
      · rfl
      · split
        · rfl
        · split <;> rfl
  · split
    · rfl
    · split <;> rfl

theorem syncPhase_ok_cwd (cfg : Config) (st : PState) (dep : Dep) (name : String)
    (ev : List Event) (st' : PState) (c : Bool) (d : Nat)
    (h : syncPhase cfg st dep name = (ev, st', Except.ok (c, d))) :
    st'.cwd = cfg.cwd0 := by
  unfold syncPhase at h
  simp only at h
  split at h
  · split at h
    · simp at h
    · split at h
      · obtain ⟨-, h2, -⟩ := Prod.mk.injEq .. ▸ h
        simp_all
      · split at h
        · simp at h
        · split at h
          · obtain ⟨-, h2, -⟩ := Prod.mk.injEq .. ▸ h
            simp_all
          · simp at h
  · split at h
    · simp at h
    · split at h
      · obtain ⟨-, h2, -⟩ := Prod.mk.injEq .. ▸ h
        simp_all
      · simp at h

theorem syncPhase_calls (cfg : Config) (st : PState) (dep : Dep) (name : String)
    (c w : String) (e : List (String × String)) (n : Nat)
    (hm : Event.call c w e n ∈ (syncPhase cfg st dep name).1) :
    (w = dependancySrcDir ++ "/" ++ name ∨ w = dependancySrcDir) ∧ e = st.env := by
  unfold syncPhase at hm
  simp only at hm
  split at hm
  · split at hm
    · simp at hm
    · split at hm
      · simp at hm
        obtain ⟨-, hw, he, -⟩ := hm
        exact ⟨Or.inl hw, he⟩
      · split at hm
        · simp at hm
          obtain ⟨-, hw, he, -⟩ := hm
          exact ⟨Or.inl hw, he⟩
        · split at hm <;>
          · simp at hm
            rcases hm with ⟨-, hw, he, -⟩ | ⟨-, hw, he, -⟩ <;>
              exact ⟨Or.inl hw, he⟩
  · split at hm
    · simp at hm
    · split at hm <;>
      · simp at hm
        obtain ⟨-, hw, he, -⟩ := hm
        exact ⟨Or.inr hw, he⟩

end UpdatePrereqs

namespace UpdatePrereqs

theorem runBuildCmds_env (cfg : Config) (st : PState) (tmpEnv : List (String × String))
    (cmds : List String) :
    (runBuildCmds cfg st tmpEnv cmds).2.1.env = st.env := by
  induction cmds with
  | nil => rfl
  | cons cmd rest ih =>
    by_cases hc : cfg.exec cmd = 0
    · simp only [runBuildCmds, if_pos hc]
      simpa using ih
    · simp only [runBuildCmds, if_neg hc]

theorem runBuildCmds_ok_cwd (cfg : Config) (st : PState) (tmpEnv : List (String × String))
    (cmds : List String) (h : (runBuildCmds cfg st tmpEnv cmds).2.2 = none) :
    (runBuildCmds cfg st tmpEnv cmds).2.1.cwd = cfg.cwd0 := by
  induction cmds with
  | nil => rfl
  | cons cmd rest ih =>
    by_cases hc : cfg.exec cmd = 0
    · simp only [runBuildCmds, if_pos hc] at h ⊢
      exact ih (by simpa using h)
    · simp only [runBuildCmds, if_neg hc] at h
      simp at h

theorem runBuildCmds_calls (cfg : Config) (st : PState) (tmpEnv : List (String × String))
    (cmds : List String) (c w : String) (e : List (String × String)) (n : Nat)
    (hm : Event.call c w e n ∈ (runBuildCmds cfg st tmpEnv cmds).1) :
    w = st.cwd ∧ e = tmpEnv := by
  induction cmds with
  | nil => simp [runBuildCmds] at hm
  | cons cmd rest ih =>
    by_cases hc : cfg.exec cmd = 0
    · simp only [runBuildCmds, if_pos hc] at hm
      rcases List.mem_append.mp hm with h1 | h1
      · simp at h1
        obtain ⟨-, hw, he, -⟩ := h1
        exact ⟨hw, he⟩
      · exact ih h1
    · simp only [runBuildCmds, if_neg hc] at hm
      simp at hm
      obtain ⟨-, hw, he, -⟩ := hm
      exact ⟨hw, he⟩

theorem runBuildCmds_ok_callEvents (cfg : Config) (st : PState)
    (tmpEnv : List (String × String)) (cmds : List String)
    (h : (runBuildCmds cfg st tmpEnv cmds).2.2 = none) :
    callEvents (runBuildCmds cfg st tmpEnv cmds).1 =
      cmds.map (fun c => Event.call c st.cwd tmpEnv 0) := by
  induction cmds with
  | nil => rfl
  | cons cmd rest ih =>
    by_cases hc : cfg.exec cmd = 0
    · simp only [runBuildCmds, if_pos hc] at h ⊢
      rw [callEvents_append]
      have hr := ih (by simpa using h)
      simp [callEvents, hr, hc]
    · simp only [runBuildCmds, if_neg hc] at h
      simp at h

theorem buildPhase_env (cfg : Config) (st : PState) (dep : Dep) (name : String) :
    (buildPhase cfg st dep name).2.1.env = st.env := by
  rcases hb : dep.build with _ | cmds
  · simp [buildPhase, hb]
  · simp only [buildPhase, hb]
    simpa using runBuildCmds_env cfg
      { st with cwd := dependancySrcDir ++ "/" ++ name } (buildEnv cfg st.env) cmds

theorem buildPhase_ok_cwd (cfg : Config) (st : PState) (dep : Dep) (name : String)
    (h : (buildPhase cfg st dep name).2.2 = none) :
    (buildPhase cfg st dep name).2.1.cwd = cfg.cwd0 := by
  rcases hb : dep.build with _ | cmds
  · simp [buildPhase, hb] at h
  · simp only [buildPhase, hb] at h ⊢
    exact runBuildCmds_ok_cwd cfg
      { st with cwd := dependancySrcDir ++ "/" ++ name } (buildEnv cfg st.env) cmds
      (by simpa using h)

theorem buildPhase_calls (cfg : Config) (st : PState) (dep : Dep) (name : String)
    (c w : String) (e : List (String × String)) (n : Nat)
    (hm : Event.call c w e n ∈ (buildPhase cfg st dep name).1) :
    w = dependancySrcDir ++ "/" ++ name ∧ e = buildEnv cfg st.env := by
  rcases hb : dep.build with _ | cmds
  · simp [buildPhase, hb] at hm
  · simp only [buildPhase, hb] at hm
    rcases List.mem_append.mp hm with h1 | h1
    · simp at h1
    · have := runBuildCmds_calls cfg
        { st with cwd := dependancySrcDir ++ "/" ++ name } (buildEnv cfg st.env) cmds
        c w e n h1
      simpa using this

theorem buildPhase_ok_callEvents (cfg : Config) (st : PState) (dep : Dep) (name : String)
    (cmds : List String) (hb : dep.build = some cmds)
    (h : (buildPhase cfg st dep name).2.2 = none) :
    callEvents (buildPhase cfg st dep name).1 =
      cmds.map (fun c =>
        Event.call c (dependancySrcDir ++ "/" ++ name) (buildEnv cfg st.env) 0) := by
  simp only [buildPhase, hb] at h ⊢
  rw [callEvents_append]
  have hr := runBuildCmds_ok_callEvents cfg
    { st with cwd := dependancySrcDir ++ "/" ++ name } (buildEnv cfg st.env) cmds
    (by simpa using h)
  simpa [callEvents] using hr

end UpdatePrereqs

namespace UpdatePrereqs

theorem processDep_ok_delta (cfg : Config) (st : PState) (dep : Dep)
    (ev : List Event) (st' : PState) (c : Bool) (d : Nat)
    (h : processDep cfg st dep = (ev, st', Except.ok (c, d))) :
    d = if c then 1 else 0 := by
  unfold processDep at h
  cases hn : dep.name with
  | none => rw [hn] at h; simp at h
  | some name =>
    rw [hn] at h
    simp only at h
    rcases heq : syncPhase cfg st dep name with ⟨ev1, st1, r1⟩
    rw [heq] at h
    rcases r1 with e | ⟨c1, d1⟩
    · simp at h
    · have hd1 := syncPhase_ok_delta cfg st dep name ev1 st1 c1 d1 heq
      cases c1 with
      | false =>
        simp at h
        simp_all
      | true =>
        simp only at h
        simp only [if_true] at h
        rcases hb : buildPhase cfg st1 dep name with ⟨ev2, st2, err⟩
        rw [hb] at h
        rcases err with _ | e
        · simp at h
          simp_all
        · simp at h

theorem processDep_env (cfg : Config) (st : PState) (dep : Dep) :
    (processDep cfg st dep).2.1.env = st.env := by
  unfold processDep
  cases hn : dep.name with
  | none => rfl
  | some name =>
    simp only
    rcases heq : syncPhase cfg st dep name with ⟨ev1, st1, r1⟩
    have henv1 : st1.env = st.env := by
      have := syncPhase_env cfg st dep name
      rw [heq] at this
      exact this
    rcases r1 with e | ⟨c1, d1⟩
    · simpa using henv1
    · cases c1 with
      | false => simpa using henv1
      | true =>
        simp only [if_true]
        rcases hb : buildPhase cfg st1 dep name with ⟨ev2, st2, err⟩
        have henv2 : st2.env = st1.env := by
          have := buildPhase_env cfg st1 dep name
          rw [hb] at this
          exact this
        rcases err with _ | e <;> simpa using henv2.trans henv1

theorem processDep_ok_cwd (cfg : Config) (st : PState) (dep : Dep)
    (ev : List Event) (st' : PState) (c : Bool) (d : Nat)
    (h : processDep cfg st dep = (ev, st', Except.ok (c, d))) :
    st'.cwd = cfg.cwd0 := by
  unfold processDep at h
  cases hn : dep.name with
  | none => rw [hn] at h; simp at h
  | some name =>
    rw [hn] at h
    simp only at h
    rcases heq : syncPhase cfg st dep name with ⟨ev1, st1, r1⟩
    rw [heq] at h
    rcases r1 with e | ⟨c1, d1⟩
    · simp at h
    · have hc1 := syncPhase_ok_cwd cfg st dep name ev1 st1 c1 d1 heq
      cases c1 with
      | false =>
        simp at h
        simp_all
      | true =>
        simp only at h
        simp only [if_true] at h
        rcases hb : buildPhase cfg st1 dep name with ⟨ev2, st2, err⟩
        rw [hb] at h
        have hc2 : err = none → st2.cwd = cfg.cwd0 := by
          intro he
          have := buildPhase_ok_cwd cfg st1 dep name (by rw [hb, he])
          rw [hb] at this
          exact this
        rcases err with _ | e
        · simp at h
          simp_all
        · simp at h

theorem processDep_calls (cfg : Config) (st : PState) (dep : Dep) (name : String)
    (hn : dep.name = some name) (c w : String) (e : List (String × String)) (n : Nat)
    (hm : Event.call c w e n ∈ (processDep cfg st dep).1) :
    w = dependancySrcDir ++ "/" ++ name ∨ w = dependancySrcDir := by
  unfold processDep at hm
  rw [hn] at hm
  simp only at hm
  rcases heq : syncPhase cfg st dep name with ⟨ev1, st1, r1⟩
  rw [heq] at hm
  have hsync : Event.call c w e n ∈ ev1 →
      w = dependancySrcDir ++ "/" ++ name ∨ w = dependancySrcDir := by
    intro h1
    exact (syncPhase_calls cfg st dep name c w e n (by rw [heq]; exact h1)).1
  rcases r1 with er | ⟨c1, d1⟩
  · simp only at hm
    rcases List.mem_append.mp hm with h1 | h1
    · simp at h1
    · exact hsync h1
  · cases c1 with
    | false =>
      simp only at hm
      rw [if_neg (by simp)] at hm
      rcases List.mem_append.mp hm with h1 | h1
      · simp at h1
      · exact hsync h1
    | true =>
      simp only [if_true] at hm
      rcases hb : buildPhase cfg st1 dep name with ⟨ev2, st2, err⟩
      rw [hb] at hm
      have hbuild : Event.call c w e n ∈ ev2 →
          w = dependancySrcDir ++ "/" ++ name := by
        intro h1
        exact (buildPhase_calls cfg st1 dep name c w e n (by rw [hb]; exact h1)).1
      rcases err with _ | er <;>
      · simp only at hm
        rcases List.mem_append.mp hm with h1 | h1
        · rcases List.mem_append.mp h1 with h2 | h2
          · simp at h2
          · exact hsync h2
        · exact Or.inl (hbuild h1)

end UpdatePrereqs

namespace UpdatePrereqs

theorem runDeps_ok_count (cfg : Config) (deps : List Dep) :
    ∀ (st : PState) (num : Nat) (ev : List Event) (st' : PState)
      (flags : List Bool) (n : Nat),
      runDeps cfg st num deps = (ev, st', flags, Except.ok n) →
      n = num + flags.count true := by
  induction deps with
  | nil =>
    intro st num ev st' flags n h
    simp [runDeps] at h
    simp_all
  | cons dep rest ih =>
    intro st num ev st' flags n h
    unfold runDeps at h
    rcases hp : processDep cfg st dep with ⟨ev1, st1, r1⟩
    rw [hp] at h
    rcases r1 with e | ⟨c1, d1⟩
    · simp at h
    · simp only at h
      rcases hr : runDeps cfg st1 (num + d1) rest with ⟨ev2, st2, flags2, r2⟩
      rw [hr] at h
      simp at h
      obtain ⟨-, -, hf, hr2⟩ := h
      rw [hr2] at hr
      have hn := ih st1 (num + d1) ev2 st2 flags2 n hr
      have hd := processDep_ok_delta cfg st dep ev1 st1 c1 d1 hp
      subst hf
      cases c1 <;> (simp_all [List.count_cons]; try omega)

theorem runDeps_env (cfg : Config) (deps : List Dep) :
    ∀ (st : PState) (num : Nat), (runDeps cfg st num deps).2.1.env = st.env := by
  induction deps with
  | nil => intro st num; rfl
  | cons dep rest ih =>
    intro st num
    unfold runDeps
    rcases hp : processDep cfg st dep with ⟨ev1, st1, r1⟩
    have henv1 : st1.env = st.env := by
      have := processDep_env cfg st dep
      rw [hp] at this
      exact this
    rcases r1 with e | ⟨c1, d1⟩
    · simpa using henv1
    · simp only
      rcases hr : runDeps cfg st1 (num + d1) rest with ⟨ev2, st2, flags2, r2⟩
      have henv2 : st2.env = st1.env := by
        have := ih st1 (num + d1)
        rw [hr] at this
        exact this
      simpa using henv2.trans henv1

theorem runDeps_error_halts (cfg : Config) (st : PState) (num : Nat) (dep : Dep)
    (rest : List Dep) (ev : List Event) (st1 : PState) (e : RunError)
    (h : processDep cfg st dep = (ev, st1, Except.error e)) :
    runDeps cfg st num (dep :: rest) = (ev, st1, [], Except.error e) := by
  unfold runDeps
  rw [h]

theorem runMain_env (cfg : Config) (manifest : Option (List Dep)) :
    (runMain cfg manifest).2.1.env = cfg.env0 := by
  rcases manifest with _ | deps
  · rfl
  · unfold runMain
    simp only
    rcases hr : runDeps cfg { cwd := cfg.cwd0, env := cfg.env0 } 0 deps
      with ⟨ev2, st2, flags2, r2⟩
    have henv : st2.env = cfg.env0 := by
      have := runDeps_env cfg deps { cwd := cfg.cwd0, env := cfg.env0 } 0
      rw [hr] at this
      exact this
    rcases r2 with e | n2 <;> simpa using henv

end UpdatePrereqs

namespace UpdatePrereqs

/-- The full outcome of processing a dependency whose source directory exists
and whose update-check command exits 0: the only command run is the check,
the working directory is restored, and the dependency is not counted. -/
theorem processDep_check_ok_eq (cfg : Config) (st : PState) (dep : Dep)
    (name chk : String) (hn : dep.name = some name)
    (hun : dep.updateNeeded = some chk)
    (hex : cfg.pathExists (dependancySrcDir ++ "/" ++ name) = true)
    (h0 : cfg.exec chk = 0) :
    processDep cfg st dep =
      ([Event.print ("  " ++ name ++ "..."),
        Event.chdir (dependancySrcDir ++ "/" ++ name),
        Event.call chk (dependancySrcDir ++ "/" ++ name) st.env 0,
        Event.print "    no update needed",
        Event.chdir cfg.cwd0],
       { st with cwd := cfg.cwd0 }, Except.ok (false, 0)) := by
  unfold processDep syncPhase
  rw [hn]
  simp [hun, hex, h0]

/-! ### Claim theorems -/

/-- C5: a missing manifest file is treated as zero dependencies: the run
prints one message and exits with status 0, creates no directory, runs no
command, and leaves state untouched — for every configuration, so no
directory root is required to pre-exist. -/
theorem missing_manifest_exits_zero (cfg : Config) :
    runMain cfg none =
      ([Event.print "Could not open prereqs.json. Assuming no dependancies."],
       { cwd := cfg.cwd0, env := cfg.env0 }, [], Except.ok 0) := rfl

/-- C6: for a dependency whose source directory exists and whose update-check
command exits 0, the only command invoked is the check itself — no update and
no build command runs — and the dependency is reported unchanged with a zero
contribution to `numChanged`. -/
theorem up_to_date_dep_runs_nothing (cfg : Config) (st : PState) (dep : Dep)
    (name chk : String) (hn : dep.name = some name)
    (hun : dep.updateNeeded = some chk)
    (hex : cfg.pathExists (dependancySrcDir ++ "/" ++ name) = true)
    (h0 : cfg.exec chk = 0) :
    processDep cfg st dep =
      ([Event.print ("  " ++ name ++ "..."),
        Event.chdir (dependancySrcDir ++ "/" ++ name),
        Event.call chk (dependancySrcDir ++ "/" ++ name) st.env 0,
        Event.print "    no update needed",
        Event.chdir cfg.cwd0],
       { st with cwd := cfg.cwd0 }, Except.ok (false, 0)) :=
  processDep_check_ok_eq cfg st dep name chk hn hun hex h0

/-- Witness for C6 at a concrete configuration. -/
theorem up_to_date_dep_runs_nothing_witness :
    processDep cfgA stA depZlib =
      ([Event.print ("  " ++ "zlib" ++ "..."),
        Event.chdir (dependancySrcDir ++ "/" ++ "zlib"),
        Event.call "check zlib" (dependancySrcDir ++ "/" ++ "zlib") stA.env 0,
        Event.print "    no update needed",
        Event.chdir cfgA.cwd0],
       { stA with cwd := cfgA.cwd0 }, Except.ok (false, 0)) :=
  up_to_date_dep_runs_nothing cfgA stA depZlib "zlib" "check zlib"
    rfl rfl (by decide) rfl

/-- C9: on the up-to-date path (directory exists, check exits 0) the result
is identical whatever the `update`, `download` and `build` fields hold — in
particular a descriptor missing all three is processed without any
`KeyError`, finishing with `Except.ok`. -/
theorem up_to_date_path_field_accesses (cfg : Config) (st : PState)
    (name chk : String) (u dl : Option String) (b : Option (List String))
    (hex : cfg.pathExists (dependancySrcDir ++ "/" ++ name) = true)
    (h0 : cfg.exec chk = 0) :
    processDep cfg st
        { name := some name, updateNeeded := some chk,
          update := u, download := dl, build := b } =
      processDep cfg st
        { name := some name, updateNeeded := some chk,
          update := none, download := none, build := none } ∧
    (processDep cfg st
        { name := some name, updateNeeded := some chk,
          update := u, download := dl, build := b }).2.2 =
      Except.ok (false, 0) := by
  have h1 := processDep_check_ok_eq cfg st
    { name := some name, updateNeeded := some chk,
      update := u, download := dl, build := b } name chk rfl rfl hex h0
  have h2 := processDep_check_ok_eq cfg st
    { name := some name, updateNeeded := some chk,
      update := none, download := none, build := none } name chk rfl rfl hex h0
  rw [h1, h2]
  simp

/-- Witness for C9 at a concrete configuration. -/
theorem up_to_date_path_field_accesses_witness :
    processDep cfgA stA
        { name := some "zlib", updateNeeded := some "check zlib",
          update := some "update zlib", download := some "download zlib",
          build := some ["make zlib"] } =
      processDep cfgA stA
        { name := some "zlib", updateNeeded := some "check zlib",
          update := none, download := none, build := none } ∧
    (processDep cfgA stA
        { name := some "zlib", updateNeeded := some "check zlib",
          update := some "update zlib", download := some "download zlib",
          build := some ["make zlib"] }).2.2 = Except.ok (false, 0) :=
  up_to_date_path_field_accesses cfgA stA "zlib" "check zlib"
    (some "update zlib") (some "download zlib") (some ["make zlib"])
    (by decide) rfl

end UpdatePrereqs

namespace HttpTestServer

/-- C8: the test server answers exactly one path: a `GET` for `/hello` gets
status 200, a `text/plain` header and the fixed body `Hello World`; any
other path gets status 404, whatever the method. -/
theorem single_path_dispatch :
    (handler "/hello" "GET").status = 200 ∧
    (handler "/hello" "GET").body = "Hello World" ∧
    (handler "/hello" "GET").headers = [("Content-type", "text/plain")] ∧
    ∀ p c, p ≠ "/hello" → (handler p c).status = 404 := by
  refine ⟨rfl, rfl, rfl, ?_⟩
  intro p c hp
  simp [handler, hp]

/-- Witness for C8 at a concrete non-`/hello` request. -/
theorem single_path_dispatch_witness :
    (handler "/goodbye" "GET").status = 404 :=
  single_path_dispatch.2.2.2 "/goodbye" "GET" (by decide)

end HttpTestServer

namespace UpdatePrereqs

/-- C1: when a run over a manifest completes without any command failure, the
argument passed to `exit` equals exactly the number of dependencies whose
`changed` flag was set to true during the run, no matter how many were
already up to date. -/
theorem exit_status_counts_changed_deps (cfg : Config) (deps : List Dep)
    (ev : List Event) (st' : PState) (flags : List Bool) (n : Nat)
    (h : runMain cfg (some deps) = (ev, st', flags, Except.ok n)) :
    n = flags.count true := by
  unfold runMain at h
  simp only at h
  rcases hr : runDeps cfg { cwd := cfg.cwd0, env := cfg.env0 } 0 deps
    with ⟨ev2, st2, flags2, r2⟩
  rw [hr] at h
  rcases r2 with e | n2
  · simp at h
  · simp at h
    obtain ⟨-, -, hf, hn2⟩ := h
    have hc := runDeps_ok_count cfg deps { cwd := cfg.cwd0, env := cfg.env0 }
      0 ev2 st2 flags2 n2 hr
    simp_all

/-- Witness for C1: a two-entry manifest where `zlib` is up to date and
`curl` is freshly downloaded and built; the exit status is 1 and the changed
flags are `[false, true]`. -/
theorem exit_status_counts_changed_deps_witness :
    (runMain cfgA (some [depZlib, depCurl])).2.2.2 = Except.ok 1 ∧
    (runMain cfgA (some [depZlib, depCurl])).2.2.1 = [false, true] ∧
    1 = ((runMain cfgA (some [depZlib, depCurl])).2.2.1).count true := by
  refine ⟨rfl, rfl, ?_⟩
  exact exit_status_counts_changed_deps cfgA [depZlib, depCurl]
    (runMain cfgA (some [depZlib, depCurl])).1
    (runMain cfgA (some [depZlib, depCurl])).2.1
    (runMain cfgA (some [depZlib, depCurl])).2.2.1 1 rfl

/-- C2 counterexample: in this concrete run a shell command (the download) is
invoked and fails; the run ends with the process working directory still at
the sources root, not restored to the original `/work` — so restoration does
not hold regardless of success or failure. -/
theorem cwd_restore_failure_counterexample :
    Event.call "download zlib" ".prereqs/Sources" [] 1
        ∈ (runMain cfgB (some [depZlib])).1 ∧
    (runMain cfgB (some [depZlib])).2.1.cwd = ".prereqs/Sources" ∧
    (runMain cfgB (some [depZlib])).2.1.cwd ≠ cfgB.cwd0 := by
  refine ⟨by decide, rfl, by decide⟩

/-- C2 amended: every shell command of a dependency runs with the working
directory temporarily changed to the relevant directory (the dependency's
source subdirectory, or the sources root for a fresh download); when the
dependency's processing completes without a command failure the working
directory is restored to the original one, but on a `check_call` failure the
run aborts with the directory left unrestored. -/
theorem cwd_scoped_and_restored_on_success (cfg : Config) (st : PState)
    (dep : Dep) (name : String) (hn : dep.name = some name)
    (ev : List Event) (st' : PState) (c : Bool) (d : Nat)
    (h : processDep cfg st dep = (ev, st', Except.ok (c, d))) :
    st'.cwd = cfg.cwd0 ∧
    ∀ cd w e n, Event.call cd w e n ∈ ev →
      w = dependancySrcDir ++ "/" ++ name ∨ w = dependancySrcDir := by
  refine ⟨processDep_ok_cwd cfg st dep ev st' c d h, ?_⟩
  intro cd w e n hm
  exact processDep_calls cfg st dep name hn cd w e n (by rw [h]; exact hm)

/-- Witness for the amended C2 at a concrete successful run. -/
theorem cwd_scoped_and_restored_on_success_witness :
    (processDep cfgA stA depCurl).2.1.cwd = cfgA.cwd0 ∧
    ∀ cd w e n, Event.call cd w e n ∈ (processDep cfgA stA depCurl).1 →
      w = dependancySrcDir ++ "/" ++ "curl" ∨ w = dependancySrcDir :=
  cwd_scoped_and_restored_on_success cfgA stA depCurl "curl" rfl
    (processDep cfgA stA depCurl).1 (processDep cfgA stA depCurl).2.1
    true 1 rfl

/-- C4: a nonzero exit of a build command stops the build sequence at that
command (the trace ends with the failing call and the state is left as it
was, with no cleanup events), turns the dependency's processing into a fatal
error, and a dependency that ends in error halts the manifest loop: nothing
of the later entries runs and the error is the run's outcome. -/
theorem build_failure_aborts_run (cfg : Config) (st stm stA1 : PState)
    (tmpEnv : List (String × String)) (bad : String) (post : List String)
    (num : Nat) (dep : Dep) (rest : List Dep) (name : String)
    (ev ev1 ev2 : List Event) (st1 stB1 : PState) (d : Nat) (e e2 : RunError)
    (hbad : cfg.exec bad ≠ 0)
    (hn : dep.name = some name)
    (hs : syncPhase cfg st dep name = (ev1, stA1, Except.ok (true, d)))
    (hb : buildPhase cfg stA1 dep name = (ev2, stB1, some e2))
    (hdep : processDep cfg st dep = (ev, st1, Except.error e)) :
    runBuildCmds cfg stm tmpEnv (bad :: post) =
      ([Event.print ("      " ++ bad), Event.call bad stm.cwd tmpEnv (cfg.exec bad)],
       stm, some (RunError.commandFailed bad)) ∧
    processDep cfg st dep =
      ([Event.print ("  " ++ name ++ "...")] ++ ev1 ++ ev2, stB1,
       Except.error e2) ∧
    runDeps cfg st num (dep :: rest) = (ev, st1, [], Except.error e) := by
  refine ⟨?_, ?_, runDeps_error_halts cfg st num dep rest ev st1 e hdep⟩
  · simp only [runBuildCmds, if_neg hbad]
  · unfold processDep
    rw [hn]
    simp only
    rw [hs]
    simp only [if_true]
    rw [hb]

/-- Witness for C4: `z` is freshly downloaded, its first build command
`"make"` fails, and the following manifest entry `curl` is never processed. -/
theorem build_failure_aborts_run_witness :
    runBuildCmds cfgC { cwd := ".prereqs/Sources/z", env := [] } [] ["make", "make install"] =
      ([Event.print ("      " ++ "make"),
        Event.call "make" ".prereqs/Sources/z" [] 1],
       { cwd := ".prereqs/Sources/z", env := [] },
       some (RunError.commandFailed "make")) ∧
    processDep cfgC stB depMake =
      ([Event.print ("  " ++ "z" ++ "...")] ++ (syncPhase cfgC stB depMake "z").1 ++
        (buildPhase cfgC (syncPhase cfgC stB depMake "z").2.1 depMake "z").1,
       (buildPhase cfgC (syncPhase cfgC stB depMake "z").2.1 depMake "z").2.1,
       Except.error (RunError.commandFailed "make")) ∧
    runDeps cfgC stB 0 [depMake, depCurl] =
      ((processDep cfgC stB depMake).1, (processDep cfgC stB depMake).2.1, [],
       Except.error (RunError.commandFailed "make")) := by
  have h := build_failure_aborts_run cfgC stB
    { cwd := ".prereqs/Sources/z", env := [] }
    (syncPhase cfgC stB depMake "z").2.1 [] "make" ["make install"] 0 depMake
    [depCurl] "z" (processDep cfgC stB depMake).1
    (syncPhase cfgC stB depMake "z").1
    (buildPhase cfgC (syncPhase cfgC stB depMake "z").2.1 depMake "z").1
    (processDep cfgC stB depMake).2.1
    (buildPhase cfgC (syncPhase cfgC stB depMake "z").2.1 depMake "z").2.1
    1 (RunError.commandFailed "make") (RunError.commandFailed "make")
    (by decide) rfl rfl rfl rfl
  simpa using h

/-- C10: the build commands receive a copy of the process environment
extended with `TARGETDIR`, and the run never mutates the process environment
itself: the final environment is the initial one, and every command invoked
during a build phase carries exactly the extended copy. -/
theorem process_env_not_mutated (cfg : Config) (manifest : Option (List Dep))
    (ev : List Event) (st' : PState) (flags : List Bool)
    (r : Except RunError Nat)
    (h : runMain cfg manifest = (ev, st', flags, r)) :
    st'.env = cfg.env0 ∧
    ∀ (st : PState) (dep : Dep) (name : String) (ev2 : List Event)
      (st2 : PState) (e2 : Option RunError),
      buildPhase cfg st dep name = (ev2, st2, e2) →
      st2.env = st.env ∧
      ∀ c w en k, Event.call c w en k ∈ ev2 → en = buildEnv cfg st.env := by
  constructor
  · have henv := runMain_env cfg manifest
    rw [h] at henv
    exact henv
  · intro st dep name ev2 st2 e2 hb
    constructor
    · have henv := buildPhase_env cfg st dep name
      rw [hb] at henv
      exact henv
    · intro c w en k hm
      exact (buildPhase_calls cfg st dep name c w en k (by rw [hb]; exact hm)).2

/-- Witness for C10 at a concrete run. -/
theorem process_env_not_mutated_witness :
    (runMain cfgA (some [depZlib, depCurl])).2.1.env = cfgA.env0 ∧
    ∀ (st : PState) (dep : Dep) (name : String) (ev2 : List Event)
      (st2 : PState) (e2 : Option RunError),
      buildPhase cfgA st dep name = (ev2, st2, e2) →
      st2.env = st.env ∧
      ∀ c w en k, Event.call c w en k ∈ ev2 → en = buildEnv cfgA st.env :=
  process_env_not_mutated cfgA (some [depZlib, depCurl])
    (runMain cfgA (some [depZlib, depCurl])).1
    (runMain cfgA (some [depZlib, depCurl])).2.1
    (runMain cfgA (some [depZlib, depCurl])).2.2.1
    (runMain cfgA (some [depZlib, depCurl])).2.2.2 rfl

end UpdatePrereqs

namespace UpdatePrereqs

/-- C3: per dependency and per invocation exactly one of the two paths runs,
decided solely by the existence of the directory named after the dependency
under the sources root: the download marker and the download command appear
in the trace exactly when the directory is missing, and an update-check
outcome marker together with the update-check command appear exactly when it
exists. -/
theorem one_path_per_dependency (cfg : Config) (st : PState) (dep : Dep)
    (name chk dl : String)
    (hun : dep.updateNeeded = some chk) (hdl : dep.download = some dl)
    (ev : List Event) (st' : PState) (r : Except RunError (Bool × Nat))
    (h : syncPhase cfg st dep name = (ev, st', r)) :
    ((Event.print "    downloading...") ∈ ev ↔
      cfg.pathExists (dependancySrcDir ++ "/" ++ name) = false) ∧
    (((Event.print "    no update needed") ∈ ev ∨
        (Event.print "    updating...") ∈ ev) ↔
      cfg.pathExists (dependancySrcDir ++ "/" ++ name) = true) ∧
    (cfg.pathExists (dependancySrcDir ++ "/" ++ name) = true →
      Event.call chk (dependancySrcDir ++ "/" ++ name) st.env (cfg.exec chk) ∈ ev) ∧
    (cfg.pathExists (dependancySrcDir ++ "/" ++ name) = false →
      Event.call dl dependancySrcDir st.env (cfg.exec dl) ∈ ev) := by
  unfold syncPhase at h
  simp only [hun, hdl] at h
  by_cases hex : cfg.pathExists (dependancySrcDir ++ "/" ++ name) = true
  · rw [if_pos hex] at h
    by_cases h0 : cfg.exec chk = 0
    · rw [if_pos h0] at h
      obtain ⟨hev, -, -⟩ := Prod.mk.injEq .. ▸ h
      subst hev
      refine ⟨by simp [hex], by simp [hex], fun _ => by simp [h0], fun hf => by simp_all⟩
    · rw [if_neg h0] at h
      rcases hu : dep.update with _ | upd
      · rw [hu] at h
        obtain ⟨hev, -, -⟩ := Prod.mk.injEq .. ▸ h
        subst hev
        refine ⟨by simp [hex], by simp [hex], fun _ => by simp, fun hf => by simp_all⟩
      · rw [hu] at h
        simp only at h
        by_cases hu0 : cfg.exec upd = 0
        · rw [if_pos hu0] at h
          obtain ⟨hev, -, -⟩ := Prod.mk.injEq .. ▸ h
          subst hev
          refine ⟨by simp [hex], by simp [hex], fun _ => by simp, fun hf => by simp_all⟩
        · rw [if_neg hu0] at h
          obtain ⟨hev, -, -⟩ := Prod.mk.injEq .. ▸ h
          subst hev
          refine ⟨by simp [hex], by simp [hex], fun _ => by simp, fun hf => by simp_all⟩
  · rw [if_neg hex] at h
    have hex' : cfg.pathExists (dependancySrcDir ++ "/" ++ name) = false :=
      Bool.not_eq_true _ ▸ hex
    by_cases hd0 : cfg.exec dl = 0
    · rw [if_pos hd0] at h
      obtain ⟨hev, -, -⟩ := Prod.mk.injEq .. ▸ h
      subst hev
      refine ⟨by simp [hex'], by simp [hex'], fun ht => by simp_all, fun _ => by simp⟩
    · rw [if_neg hd0] at h
      obtain ⟨hev, -, -⟩ := Prod.mk.injEq .. ▸ h
      subst hev
      refine ⟨by simp [hex'], by simp [hex'], fun ht => by simp_all, fun _ => by simp⟩

end UpdatePrereqs

namespace UpdatePrereqs

/-- Witness for C3 at a concrete dependency whose directory exists. -/
theorem one_path_per_dependency_witness :
    ((Event.print "    downloading...") ∈ (syncPhase cfgA stA depZlib "zlib").1 ↔
      cfgA.pathExists (dependancySrcDir ++ "/" ++ "zlib") = false) ∧
    (((Event.print "    no update needed") ∈ (syncPhase cfgA stA depZlib "zlib").1 ∨
        (Event.print "    updating...") ∈ (syncPhase cfgA stA depZlib "zlib").1) ↔
      cfgA.pathExists (dependancySrcDir ++ "/" ++ "zlib") = true) ∧
    (cfgA.pathExists (dependancySrcDir ++ "/" ++ "zlib") = true →
      Event.call "check zlib" (dependancySrcDir ++ "/" ++ "zlib") stA.env
        (cfgA.exec "check zlib") ∈ (syncPhase cfgA stA depZlib "zlib").1) ∧
    (cfgA.pathExists (dependancySrcDir ++ "/" ++ "zlib") = false →
      Event.call "download zlib" dependancySrcDir stA.env
        (cfgA.exec "download zlib") ∈ (syncPhase cfgA stA depZlib "zlib").1) :=
  one_path_per_dependency cfgA stA depZlib "zlib" "check zlib" "download zlib"
    rfl rfl (syncPhase cfgA stA depZlib "zlib").1
    (syncPhase cfgA stA depZlib "zlib").2.1
    (syncPhase cfgA stA depZlib "zlib").2.2 rfl

/-- C7: every dependency marked changed — freshly downloaded or updated —
runs each of its build commands in declared manifest order, in the
dependency's source subdirectory, with the environment extended by
`TARGETDIR = <original-cwd>/<os-root>`: the command invocations of the
dependency's trace end with exactly the build commands in order, each at the
source subdirectory with the extended environment, and the extended
environment maps `TARGETDIR` to that path. -/
theorem changed_dep_builds_in_order (cfg : Config) (st : PState) (dep : Dep)
    (name : String) (cmds : List String)
    (hn : dep.name = some name) (hb : dep.build = some cmds)
    (ev : List Event) (st' : PState) (d : Nat)
    (h : processDep cfg st dep = (ev, st', Except.ok (true, d))) :
    (∃ pre, callEvents ev = pre ++ cmds.map (fun c =>
        Event.call c (dependancySrcDir ++ "/" ++ name) (buildEnv cfg st.env) 0)) ∧
    envLookup (buildEnv cfg st.env) "TARGETDIR" =
      some (cfg.cwd0 ++ "/" ++ dependancyOsDir cfg) := by
  constructor
  · unfold processDep at h
    rw [hn] at h
    simp only at h
    rcases heq : syncPhase cfg st dep name with ⟨ev1, st1, r1⟩
    rw [heq] at h
    rcases r1 with e | ⟨c1, d1⟩
    · simp at h
    · cases c1 with
      | false => simp at h
      | true =>
        simp only at h
        simp only [if_true] at h
        rcases hbp : buildPhase cfg st1 dep name with ⟨ev2, st2, err⟩
        rw [hbp] at h
        rcases err with _ | e
        · simp at h
          obtain ⟨hev, -, -⟩ := h
          have henv : st1.env = st.env := by
            have hse := syncPhase_env cfg st dep name
            rw [heq] at hse
            exact hse
          have hbc := buildPhase_ok_callEvents cfg st1 dep name cmds hb
            (by rw [hbp])
          rw [hbp] at hbc
          simp only at hbc
          refine ⟨callEvents ([Event.print ("  " ++ name ++ "...")] ++ ev1), ?_⟩
          rw [← hev]
          simp [callEvents, callEvents_append, hbc, henv]
        · simp at h
  · simp [envLookup, buildEnv, envSet]

/-- Witness for C7: `curl` is freshly downloaded and its two build commands
run in order in its source subdirectory with `TARGETDIR` set. -/
theorem changed_dep_builds_in_order_witness :
    (∃ pre, callEvents (processDep cfgA stA depCurl).1 =
      pre ++ (["make curl", "install curl"]).map (fun c =>
        Event.call c (dependancySrcDir ++ "/" ++ "curl") (buildEnv cfgA stA.env) 0)) ∧
    envLookup (buildEnv cfgA stA.env) "TARGETDIR" =
      some (cfgA.cwd0 ++ "/" ++ dependancyOsDir cfgA) :=
  changed_dep_builds_in_order cfgA stA depCurl "curl" ["make curl", "install curl"]
    rfl rfl (processDep cfgA stA depCurl).1 (processDep cfgA stA depCurl).2.1
    1 rfl

end UpdatePrereqs
